import Mathlib

/-!
Shallow embedding of `src/lib/steps/rollup.ts` (ng-packagr): the
External-Module Classifier (`externalModuleIdStrategy`), the Global-Name
Resolver (`umdModuleIdStrategy`) and the bundler-diagnostic handler
(`onwarn` inside `rollup`).  JavaScript strings are modelled as Lean
`String`; the override table (a JS object used as a string map) as an
association list with `List.lookup`; the embedded-module set (a JS array)
as a `List String`.
-/

namespace NgPackagr

/-- Boolean test that the char list `p` occurs at the start of `l`
(the char-list core of JS `String.prototype.startsWith`). -/
def listStarts : List Char → List Char → Bool
  | _, [] => true
  | [], _ :: _ => false
  | c :: cs, p :: ps => c == p && listStarts cs ps

/-- JS `s.startsWith(p)`. -/
def strStartsWith (s p : String) : Bool :=
  listStarts s.data p.data

/-- Node's POSIX `path.isAbsolute`: a path is absolute iff it is nonempty
and its first character is a forward slash. -/
def path_isAbsolute (s : String) : Bool :=
  strStartsWith s "/"

/-- Boolean test that the char list `p` occurs as a contiguous sublist of
`l` (core of JS `s.indexOf(p) >= 0`). -/
def listContainsSub : List Char → List Char → Bool
  | [], p => listStarts [] p
  | c :: cs, p => listStarts (c :: cs) p || listContainsSub cs p

/-- JS `s.indexOf(pat) >= 0`: does `pat` occur as a substring of `s`? -/
def strContainsSub (s pat : String) : Bool :=
  listContainsSub s.data pat.data

/-- Embedding of `externalModuleIdStrategy` from `src/lib/steps/rollup.ts`:

    if (path.isAbsolute(moduleId) || moduleId.startsWith(".") ||
        moduleId.startsWith("/") || moduleId.indexOf("commonjsHelpers") >= 0 ||
        embedded.some(x => x === moduleId)) { return false; }
    return true;

The JS default `embedded = []` is passed explicitly by callers here. -/
def externalModuleIdStrategy (moduleId : String) (embedded : List String) : Bool :=
  if path_isAbsolute moduleId
      || strStartsWith moduleId "."
      || strStartsWith moduleId "/"
      || strContainsSub moduleId "commonjsHelpers"
      || embedded.any (fun x => x == moduleId)
  then false
  else true

/-- Replace the first occurrence of the character `a` in `l` by `b`,
leaving the rest unchanged. -/
def replaceFirstChar : List Char → Char → Char → List Char
  | [], _, _ => []
  | c :: cs, a, b => if c = a then b :: cs else c :: replaceFirstChar cs a b

/-- JS `s.replace(a, b)` where the pattern is a one-character *string*
(as in the source's `.replace("/", ".")`): JS replaces only the FIRST
occurrence when the pattern is a string. -/
def jsReplaceFirst (s : String) (a b : Char) : String :=
  ⟨replaceFirstChar s.data a b⟩

/-- ECMAScript line terminators: in a JS regex without the `s` flag, `.`
matches any character except `'\n'`, `'\r'`, U+2028 LINE SEPARATOR and
U+2029 PARAGRAPH SEPARATOR. -/
def isLineTerm (c : Char) : Bool :=
  c = '\n' || c = '\r' || c = '\u2028' || c = '\u2029'

/-- Longest line-terminator-free initial segment: an unanchored greedy
`.*`/`.+` group captures up to the first ECMAScript line terminator. -/
def takeNoLineTerm : List Char → List Char
  | [] => []
  | c :: cs => if isLineTerm c then [] else c :: takeNoLineTerm cs

/-- JS `/^<pre>(\/?.*)/.exec(s)`: succeeds iff `s` starts with the literal
`pre`; group 1 then captures the remainder up to a line terminator (the
optional `\/?` is absorbed by the greedy `.*`). -/
def execPrefixRest (s pre : String) : Option String :=
  if strStartsWith s pre then some ⟨takeNoLineTerm (s.data.drop pre.data.length)⟩
  else none

/-- JS `/^<pre>(.+)/.exec(s)`: succeeds iff `s` starts with the literal
`pre` and at least one non-line-terminator character follows; group 1
captures the remainder up to a line terminator. -/
def execPrefixPlus (s pre : String) : Option String :=
  if strStartsWith s pre then
    let rest := takeNoLineTerm (s.data.drop pre.data.length)
    if rest.isEmpty then none else some ⟨rest⟩
  else none

/-- JS `/^rxjs\/[^\/]+$/.test(s)`: `s` is `"rxjs/"` followed by a nonempty
run of characters none of which is a slash (the negated class `[^\/]`
does match line terminators). -/
def rxjsSingleSegment (s : String) : Bool :=
  strStartsWith s "rxjs/"
    && !(s.data.drop "rxjs/".data.length).isEmpty
    && (s.data.drop "rxjs/".data.length).all (fun c => c != '/')

/-- Embedding of the regex-pattern chain of `umdModuleIdStrategy`
(everything after the override-table lookup), in source order:
platform-browser-dynamic, platform-browser, general `@angular/`,
rxjs observable / scheduler / symbol / operator sub-paths, rxjs
single-segment, then the empty-string fallback.  Each Angular branch
appends the captured remainder to the fixed base and applies
`.replace("/", ".")` (first occurrence only). -/
def umdPatternRules (moduleId : String) : String :=
  match execPrefixRest moduleId "@angular/platform-browser-dynamic" with
  | some rest => jsReplaceFirst ("ng.platformBrowserDynamic" ++ rest) '/' '.'
  | none =>
    match execPrefixRest moduleId "@angular/platform-browser" with
    | some rest => jsReplaceFirst ("ng.platformBrowser" ++ rest) '/' '.'
    | none =>
      match execPrefixPlus moduleId "@angular/" with
      | some rest => jsReplaceFirst ("ng." ++ rest) '/' '.'
      | none =>
        if strStartsWith moduleId "rxjs/observable"
            || strStartsWith moduleId "rxjs/add/observable" then
          "Rx.Observable"
        else if strStartsWith moduleId "rxjs/scheduler" then
          "Rx.Scheduler"
        else if strStartsWith moduleId "rxjs/symbol" then
          "Rx.Symbol"
        else if strStartsWith moduleId "rxjs/operator"
            || strStartsWith moduleId "rxjs/add/operator" then
          "Rx.Observable.prototype"
        else if rxjsSingleSegment moduleId then
          "Rx"
        else
          ""

/-- Embedding of `umdModuleIdStrategy` from `src/lib/steps/rollup.ts`.
The source's first step is

    if (nameProvided = umdModuleIds[moduleId]) { return nameProvided; }

JS truthiness: a *present* key whose value is the empty string is falsy,
so the code falls through to the pattern rules in that case.  The JS
default `umdModuleIds = {}` is passed explicitly by callers here. -/
def umdModuleIdStrategy (moduleId : String) (umdModuleIds : List (String × String)) : String :=
  match umdModuleIds.lookup moduleId with
  | some nameProvided =>
      if nameProvided = "" then umdPatternRules moduleId else nameProvided
  | none => umdPatternRules moduleId

/-- Rollup warning object as seen by the `onwarn` callback: a diagnostic
code (absent codes modelled as `none`) and a message. -/
structure RollupWarning where
  code : Option String
  message : String

/-- Embedding of the `onwarn` callback inside `rollup`:

    onwarn: (warning) => {
      if (warning.code === 'THIS_IS_UNDEFINED') { return; }
      log.warn(warning.message);
    }

The result models the interaction with the logging collaborator:
`some m` means `log.warn(m)` was called, `none` means the diagnostic was
swallowed.  The handler is a total function: it never throws, so no
diagnostic halts the build. -/
def onwarn (warning : RollupWarning) : Option String :=
  if warning.code = some "THIS_IS_UNDEFINED" then none
  else some warning.message

/-- Number of occurrences of the character `a` in a char list. -/
def countChar (a : Char) : List Char → Nat
  | [] => 0
  | c :: cs => (if c = a then 1 else 0) + countChar a cs

/-! Helper lemmas about the char-list primitives. -/

/-- Characterisation of `listStarts`: `p` starts `l` iff `l` is `p`
followed by some tail. -/
theorem listStarts_iff (p l : List Char) :
    listStarts l p = true ↔ ∃ t, l = p ++ t := by
  induction p generalizing l with
  | nil =>
    simp [listStarts]
  | cons c cs ih =>
    cases l with
    | nil => simp [listStarts]
    | cons d ds =>
      simp only [listStarts, Bool.and_eq_true, beq_iff_eq, ih, List.cons_append,
        List.cons.injEq]
      constructor
      · rintro ⟨rfl, t, rfl⟩
        exact ⟨t, rfl, rfl⟩
      · rintro ⟨t, rfl, rfl⟩
        exact ⟨rfl, t, rfl⟩

/-- Prepending the same list to both arguments does not change `listStarts`. -/
theorem listStarts_append (x l p : List Char) :
    listStarts (x ++ l) (x ++ p) = listStarts l p := by
  induction x with
  | nil => rfl
  | cons c cs ih => simp [listStarts, ih]

/-- A char list with no line terminator is its own line-terminator-free
initial segment. -/
theorem takeNoLineTerm_eq_self (l : List Char) (h : ∀ c ∈ l, isLineTerm c = false) :
    takeNoLineTerm l = l := by
  induction l with
  | nil => rfl
  | cons c cs ih =>
    have hc : isLineTerm c = false := h c (List.mem_cons_self c cs)
    show (if isLineTerm c then [] else c :: takeNoLineTerm cs) = c :: cs
    rw [if_neg (by simp [hc])]
    exact congrArg (c :: ·) (ih fun d hd => h d (List.mem_cons_of_mem c hd))

/-- Character counts add over list append. -/
theorem countChar_append (a : Char) (l m : List Char) :
    countChar a (l ++ m) = countChar a l + countChar a m := by
  induction l with
  | nil => simp [countChar]
  | cons c cs ih => simp [countChar, ih, Nat.add_assoc]

/-- Replacing the first occurrence of `a` by a different character removes
exactly one occurrence of `a` (truncated subtraction covers the
no-occurrence case, where nothing changes). -/
theorem countChar_replaceFirstChar (a b : Char) (hab : b ≠ a) (l : List Char) :
    countChar a (replaceFirstChar l a b) = countChar a l - 1 := by
  induction l with
  | nil => simp [replaceFirstChar, countChar]
  | cons c cs ih =>
    by_cases h : c = a
    · simp only [replaceFirstChar, if_pos h, countChar, if_neg hab, if_pos h]
      omega
    · simp only [replaceFirstChar, if_neg h, countChar, if_neg h, ih]
      omega

/-- Lookup in the empty override table always falls through to the
pattern rules. -/
theorem umdModuleIdStrategy_nil (moduleId : String) :
    umdModuleIdStrategy moduleId [] = umdPatternRules moduleId := rfl

/-- Evaluation rule for `execPrefixRest` when the literal does occur at
the start and the remainder has no line terminator. -/
theorem execPrefixRest_pos (s pre : String) (t : List Char)
    (h : s.data = pre.data ++ t) (hnl : ∀ c ∈ t, isLineTerm c = false) :
    execPrefixRest s pre = some ⟨t⟩ := by
  have hs : listStarts s.data pre.data = true :=
    (listStarts_iff pre.data s.data).mpr ⟨t, h⟩
  unfold execPrefixRest strStartsWith
  rw [hs, h]
  simp [List.drop_left, takeNoLineTerm_eq_self t hnl]

/-- Evaluation rule for `execPrefixRest` when the literal does not occur
at the start. -/
theorem execPrefixRest_neg (s pre : String)
    (h : strStartsWith s pre = false) :
    execPrefixRest s pre = none := by
  unfold execPrefixRest
  rw [h]
  simp

/-- Evaluation rule for `execPrefixPlus` when the literal occurs at the
start and a nonempty line-terminator-free remainder follows. -/
theorem execPrefixPlus_pos (s pre : String) (t : List Char)
    (h : s.data = pre.data ++ t) (hnl : ∀ c ∈ t, isLineTerm c = false) (hne : t ≠ []) :
    execPrefixPlus s pre = some ⟨t⟩ := by
  have hs : listStarts s.data pre.data = true :=
    (listStarts_iff pre.data s.data).mpr ⟨t, h⟩
  unfold execPrefixPlus strStartsWith
  rw [hs, h]
  simp only [if_true, List.drop_left, takeNoLineTerm_eq_self t hnl]
  rw [if_neg (by simpa [List.isEmpty_iff] using hne)]

/-- Reduction of `umdPatternRules` when the platform-browser-dynamic rule
fires. -/
theorem umdPatternRules_pbd (m rest : String)
    (h : execPrefixRest m "@angular/platform-browser-dynamic" = some rest) :
    umdPatternRules m = jsReplaceFirst ("ng.platformBrowserDynamic" ++ rest) '/' '.' := by
  unfold umdPatternRules
  rw [h]

/-- Reduction of `umdPatternRules` when the platform-browser rule fires. -/
theorem umdPatternRules_pb (m rest : String)
    (h1 : execPrefixRest m "@angular/platform-browser-dynamic" = none)
    (h2 : execPrefixRest m "@angular/platform-browser" = some rest) :
    umdPatternRules m = jsReplaceFirst ("ng.platformBrowser" ++ rest) '/' '.' := by
  unfold umdPatternRules
  rw [h1, h2]

/-- Reduction of `umdPatternRules` when the general `@angular/` rule
fires. -/
theorem umdPatternRules_ng (m rest : String)
    (h1 : execPrefixRest m "@angular/platform-browser-dynamic" = none)
    (h2 : execPrefixRest m "@angular/platform-browser" = none)
    (h3 : execPrefixPlus m "@angular/" = some rest) :
    umdPatternRules m = jsReplaceFirst ("ng." ++ rest) '/' '.' := by
  unfold umdPatternRules
  rw [h1, h2, h3]

/-- Unfolding lemma: the data of `jsReplaceFirst` is `replaceFirstChar`
on the data. -/
theorem jsReplaceFirst_data (s : String) (a b : Char) :
    (jsReplaceFirst s a b).data = replaceFirstChar s.data a b := rfl

/-- Unfolding lemma: the data of a string built from a char list is that
char list. -/
theorem data_mk (l : List Char) : (⟨l⟩ : String).data = l := rfl

/-! Claim theorems. -/

/-- C1: for every module identifier that is an absolute filesystem path,
or starts with `"."`, or starts with `"/"`, `externalModuleIdStrategy`
returns `false` (not external), for every embedded-module set. -/
theorem C1_relative_or_absolute_not_external (moduleId : String) (embedded : List String)
    (h : path_isAbsolute moduleId = true ∨ strStartsWith moduleId "." = true ∨
      strStartsWith moduleId "/" = true) :
    externalModuleIdStrategy moduleId embedded = false := by
  unfold externalModuleIdStrategy
  rcases h with h | h | h <;> simp [h]

/-- Witness for C1 at the absolute path `"/tmp/x"` with an empty
embedded-module set. -/
theorem C1_witness :
    externalModuleIdStrategy "/tmp/x" [] = false :=
  C1_relative_or_absolute_not_external "/tmp/x" [] (Or.inl (by decide))

/-- C2: every member of the embedded-module set is classified as not
external by `externalModuleIdStrategy`, whatever the identifier looks
like. -/
theorem C2_embedded_not_external (moduleId : String) (embedded : List String)
    (h : moduleId ∈ embedded) :
    externalModuleIdStrategy moduleId embedded = false := by
  unfold externalModuleIdStrategy
  have ha : embedded.any (fun x => x == moduleId) = true :=
    List.any_eq_true.mpr ⟨moduleId, h, by simp⟩
  simp [ha]

/-- Witness for C2: `"lodash"` would be external for an empty set, but is
not external once embedded. -/
theorem C2_witness :
    externalModuleIdStrategy "lodash" ["lodash"] = false :=
  C2_embedded_not_external "lodash" ["lodash"] (by decide)

/-- C3 counterexample: `"commonjsHelpers"` is not an absolute path, does
not start with `"."` or `"/"`, and is not in the (empty) embedded-module
set, yet `externalModuleIdStrategy` returns `false`, because of the
fifth condition (`indexOf("commonjsHelpers") >= 0`) that the claim
omits. -/
theorem C3_counterexample :
    path_isAbsolute "commonjsHelpers" = false ∧
    strStartsWith "commonjsHelpers" "." = false ∧
    strStartsWith "commonjsHelpers" "/" = false ∧
    "commonjsHelpers" ∉ ([] : List String) ∧
    externalModuleIdStrategy "commonjsHelpers" [] = false :=
  ⟨by decide, by decide, by decide, by simp, by decide⟩

/-- C3 amended: a module identifier that is not an absolute path, does
not start with `"."` or `"/"`, does not contain the bundler helper
substring `"commonjsHelpers"`, and is not a member of the
embedded-module set, is classified as external. -/
theorem C3_amended_unmatched_is_external (moduleId : String) (embedded : List String)
    (h1 : path_isAbsolute moduleId = false)
    (h2 : strStartsWith moduleId "." = false)
    (h3 : strStartsWith moduleId "/" = false)
    (h4 : strContainsSub moduleId "commonjsHelpers" = false)
    (h5 : moduleId ∉ embedded) :
    externalModuleIdStrategy moduleId embedded = true := by
  unfold externalModuleIdStrategy
  have ha : embedded.any (fun x => x == moduleId) = false := by
    rw [Bool.eq_false_iff]
    intro hc
    obtain ⟨x, hx, hxe⟩ := List.any_eq_true.mp hc
    rw [beq_iff_eq] at hxe
    exact h5 (hxe ▸ hx)
  simp [h1, h2, h3, h4, ha]

/-- Witness for the amended C3 at `"lodash"` with an empty
embedded-module set. -/
theorem C3_amended_witness :
    externalModuleIdStrategy "lodash" [] = true :=
  C3_amended_unmatched_is_external "lodash" []
    (by decide) (by decide) (by decide) (by decide) (by simp)

/-- C4 counterexample: `"@angular/core"` is present as an exact key of
the override table with the value `""`, but JS truthiness makes the
lookup fall through, and the resolver returns the pattern-derived
`"ng.core"` instead of the table's value. -/
theorem C4_counterexample :
    umdModuleIdStrategy "@angular/core" [("@angular/core", "")] = "ng.core" ∧
    ("ng.core" : String) ≠ "" :=
  ⟨by decide, by decide⟩

/-- C4 amended: for every identifier present as an exact key in the
override table with a NON-EMPTY value, `umdModuleIdStrategy` returns
that value, even when the identifier also matches a pattern rule.
(A present key whose value is the empty string is falsy in JS and is
ignored.) -/
theorem C4_amended_nonempty_override_wins (moduleId v : String)
    (umdModuleIds : List (String × String))
    (hl : umdModuleIds.lookup moduleId = some v) (hv : v ≠ "") :
    umdModuleIdStrategy moduleId umdModuleIds = v := by
  unfold umdModuleIdStrategy
  rw [hl]
  simp [hv]

/-- Witness for the amended C4: an override for `"@angular/core"`, which
also matches the general framework pattern rule, is returned verbatim. -/
theorem C4_amended_witness :
    umdModuleIdStrategy "@angular/core" [("@angular/core", "myNgCore")] = "myNgCore" :=
  C4_amended_nonempty_override_wins "@angular/core" "myNgCore"
    [("@angular/core", "myNgCore")] (by decide) (by decide)

/-- C5: with an empty override table, the resolver returns
`"ng.platformBrowserDynamic"` for `"@angular/platform-browser-dynamic"`,
`"ng.platformBrowserDynamic.testing"` for
`"@angular/platform-browser-dynamic/testing"`, and `"ng.core"` for
`"@angular/core"`: the platform-browser-dynamic rule is not shadowed. -/
theorem C5_angular_globals :
    umdModuleIdStrategy "@angular/platform-browser-dynamic" [] = "ng.platformBrowserDynamic" ∧
    umdModuleIdStrategy "@angular/platform-browser-dynamic/testing" []
      = "ng.platformBrowserDynamic.testing" ∧
    umdModuleIdStrategy "@angular/core" [] = "ng.core" :=
  ⟨by decide, by decide, by decide⟩

/-- C6: with an empty override table, the resolver returns
`"Rx.Observable"` for `"rxjs/observable"` and `"rxjs/add/observable"`,
`"Rx"` for `"rxjs/Subject"`, and `""` for `"lodash"`. -/
theorem C6_rxjs_globals :
    umdModuleIdStrategy "rxjs/observable" [] = "Rx.Observable" ∧
    umdModuleIdStrategy "rxjs/add/observable" [] = "Rx.Observable" ∧
    umdModuleIdStrategy "rxjs/Subject" [] = "Rx" ∧
    umdModuleIdStrategy "lodash" [] = "" :=
  ⟨by decide, by decide, by decide, by decide⟩

/-- C7 counterexample: for `"@angular/a/b/c"` (a remainder with two
separators) the resolver returns `"ng.a.b/c"`: only the first separator
is converted to a dot, because JS `.replace("/", ".")` with a string
pattern replaces the first occurrence only; one `'/'` survives in the
derived name. -/
theorem C7_counterexample :
    umdModuleIdStrategy "@angular/a/b/c" [] = "ng.a.b/c" ∧
    countChar '/' (umdModuleIdStrategy "@angular/a/b/c" []).data = 1 :=
  ⟨by decide, by decide⟩

/-- C7 amended: for every remainder `r` free of ECMAScript line
terminators, the name the
resolver derives for `"@angular/" ++ r` has exactly the FIRST
path-separator of the remainder converted to a member-access dot, so the
derived name contains exactly one fewer `'/'` than the remainder
(truncated subtraction: a separator-free remainder yields a
separator-free name); separators after the first are NOT converted. -/
theorem C7_amended_first_separator_converted (r : String)
    (hnl : ∀ c ∈ r.data, isLineTerm c = false) :
    countChar '/' (umdModuleIdStrategy ("@angular/" ++ r) []).data
      = countChar '/' r.data - 1 := by
  rw [umdModuleIdStrategy_nil]
  by_cases hA : listStarts r.data "platform-browser-dynamic".data = true
  · obtain ⟨t, ht⟩ := (listStarts_iff _ _).mp hA
    have hnlt : ∀ c ∈ t, isLineTerm c = false := fun c hc =>
      hnl c (by rw [ht]; exact List.mem_append_right _ hc)
    have hsplit : ("@angular/" ++ r).data = "@angular/platform-browser-dynamic".data ++ t := by
      have e : "@angular/platform-browser-dynamic".data
          = "@angular/".data ++ "platform-browser-dynamic".data := by decide
      rw [String.data_append, ht, e, List.append_assoc]
    rw [umdPatternRules_pbd _ ⟨t⟩ (execPrefixRest_pos _ _ t hsplit hnlt)]
    rw [jsReplaceFirst_data]
    rw [show ("ng.platformBrowserDynamic" ++ (⟨t⟩ : String)).data
        = "ng.platformBrowserDynamic".data ++ t from rfl]
    rw [countChar_replaceFirstChar '/' '.' (by decide)]
    rw [countChar_append, ht, countChar_append]
    rw [show countChar '/' "ng.platformBrowserDynamic".data = 0 from by decide]
    rw [show countChar '/' "platform-browser-dynamic".data = 0 from by decide]
  · have hn1 : execPrefixRest ("@angular/" ++ r) "@angular/platform-browser-dynamic" = none := by
      apply execPrefixRest_neg
      unfold strStartsWith
      have e : "@angular/platform-browser-dynamic".data
          = "@angular/".data ++ "platform-browser-dynamic".data := by decide
      rw [String.data_append, e, listStarts_append]
      exact Bool.eq_false_iff.mpr hA
    by_cases hB : listStarts r.data "platform-browser".data = true
    · obtain ⟨t, ht⟩ := (listStarts_iff _ _).mp hB
      have hnlt : ∀ c ∈ t, isLineTerm c = false := fun c hc =>
        hnl c (by rw [ht]; exact List.mem_append_right _ hc)
      have hsplit : ("@angular/" ++ r).data = "@angular/platform-browser".data ++ t := by
        have e : "@angular/platform-browser".data
            = "@angular/".data ++ "platform-browser".data := by decide
        rw [String.data_append, ht, e, List.append_assoc]
      rw [umdPatternRules_pb _ ⟨t⟩ hn1 (execPrefixRest_pos _ _ t hsplit hnlt)]
      rw [jsReplaceFirst_data]
      rw [show ("ng.platformBrowser" ++ (⟨t⟩ : String)).data
          = "ng.platformBrowser".data ++ t from rfl]
      rw [countChar_replaceFirstChar '/' '.' (by decide)]
      rw [countChar_append, ht, countChar_append]
      rw [show countChar '/' "ng.platformBrowser".data = 0 from by decide]
      rw [show countChar '/' "platform-browser".data = 0 from by decide]
    · have hn2 : execPrefixRest ("@angular/" ++ r) "@angular/platform-browser" = none := by
        apply execPrefixRest_neg
        unfold strStartsWith
        have e : "@angular/platform-browser".data
            = "@angular/".data ++ "platform-browser".data := by decide
        rw [String.data_append, e, listStarts_append]
        exact Bool.eq_false_iff.mpr hB
      cases hr : r.data with
      | nil =>
        have hr0 : r = "" := String.ext (by rw [hr])
        subst hr0
        decide
      | cons c cs =>
        have hne : r.data ≠ [] := by rw [hr]; simp
        have h3 : execPrefixPlus ("@angular/" ++ r) "@angular/" = some ⟨r.data⟩ :=
          execPrefixPlus_pos _ _ r.data rfl hnl hne
        rw [umdPatternRules_ng _ ⟨r.data⟩ hn1 hn2 h3]
        rw [jsReplaceFirst_data]
        rw [show ("ng." ++ (⟨r.data⟩ : String)).data = "ng.".data ++ r.data from rfl]
        rw [countChar_replaceFirstChar '/' '.' (by decide)]
        rw [countChar_append]
        rw [show countChar '/' "ng.".data = 0 from by decide]
        rw [hr]
        omega

/-- Witness for the amended C7 at the remainder `"a/b/c"`: the derived
name keeps one of the two separators. -/
theorem C7_amended_witness :
    countChar '/' (umdModuleIdStrategy ("@angular/" ++ "a/b/c") []).data
      = countChar '/' "a/b/c".data - 1 :=
  C7_amended_first_separator_converted "a/b/c" (by decide)

/-- C8 counterexample: the five not-external conditions are NOT mutually
exclusive: the identifier `"/a"` is both an absolute path (condition 1)
and starts with `"/"` (condition 3), and `externalModuleIdStrategy`
classifies it not external. -/
theorem C8_counterexample :
    path_isAbsolute "/a" = true ∧
    strStartsWith "/a" "/" = true ∧
    externalModuleIdStrategy "/a" [] = false :=
  ⟨by decide, by decide, by decide⟩

/-- C8 amended: the five conditions are not mutually exclusive (any
identifier starting with `"/"` satisfies both the absolute-path and the
slash conditions), but overlap is harmless: the classifier returns
not-external exactly when at least one of the five conditions holds, so
neither the order of the conditions nor how many of them hold affects
the result. -/
theorem C8_amended_overlap_harmless (moduleId : String) (embedded : List String) :
    externalModuleIdStrategy moduleId embedded = false ↔
      (path_isAbsolute moduleId = true ∨ strStartsWith moduleId "." = true ∨
        strStartsWith moduleId "/" = true ∨
        strContainsSub moduleId "commonjsHelpers" = true ∨ moduleId ∈ embedded) := by
  unfold externalModuleIdStrategy
  constructor
  · intro h
    by_contra hn
    push_neg at hn
    obtain ⟨n1, n2, n3, n4, n5⟩ := hn
    simp only [Bool.not_eq_true] at n1 n2 n3 n4
    have ha : embedded.any (fun x => x == moduleId) = false := by
      rw [Bool.eq_false_iff]
      intro hc
      obtain ⟨x, hx, hxe⟩ := List.any_eq_true.mp hc
      rw [beq_iff_eq] at hxe
      exact n5 (hxe ▸ hx)
    simp [n1, n2, n3, n4, ha] at h
  · intro h
    rcases h with h | h | h | h | h
    · simp [h]
    · simp [h]
    · simp [h]
    · simp [h]
    · have ha : embedded.any (fun x => x == moduleId) = true :=
        List.any_eq_true.mpr ⟨moduleId, h, by simp⟩
      simp [ha]

/-- C9: the bundler-diagnostic handler forwards a diagnostic's message to
the logging collaborator as a warning iff its code is not
`'THIS_IS_UNDEFINED'`; the `'THIS_IS_UNDEFINED'` diagnostic is swallowed
(no log output).  The handler is a total function, so no forwarded
diagnostic halts the build. -/
theorem C9_onwarn_filters_this_undefined (w : RollupWarning) :
    (onwarn w = some w.message ↔ w.code ≠ some "THIS_IS_UNDEFINED") ∧
    (onwarn w = none ↔ w.code = some "THIS_IS_UNDEFINED") := by
  unfold onwarn
  by_cases h : w.code = some "THIS_IS_UNDEFINED" <;> simp [h]

/-- C10: pattern matching is case-sensitive: `"rxjs/Observable"` (capital
O) does not hit the lowercase `observable` sub-path rule and falls
through to the single-segment rule, yielding `"Rx"`, not
`"Rx.Observable"`. -/
theorem C10_case_sensitive :
    umdModuleIdStrategy "rxjs/Observable" [] = "Rx" ∧
    umdModuleIdStrategy "rxjs/Observable" [] ≠ "Rx.Observable" :=
  ⟨by decide, by decide⟩

end NgPackagr
